import Mathlib

/-!
# Verification of the CodeRabbit comment-parsing engine

Shallow embedding of `src/utils/bot-parser.ts` (functions `parseComment`,
`parseCodeRabbitComment`, `parseComments`, `filterActionableComments`) and the
comment data model of `src/types/bots.ts` (`BaseComment`, `CodeRabbitComment`,
`Comment`, `isCodeRabbitComment`).

The parser works by JavaScript regular-expression matching over the comment
body.  Each regex of the source is translated here into an executable scanner
over `List Char`:

* `String.prototype.match` without the `g` flag finds the match with the
  leftmost starting position; `scanSuffixes` tries each position from the left
  and keeps the first success.
* a lazy quantifier (`+?`, `*?`) takes the shortest extent that lets the rest
  of the pattern match; `takeUntilClose` implements `([\s\S]+?)close` and
  `takeUntilCloseNoNL` implements `(.+?)close` (JS `.` excludes the four
  line terminators).
* `^` with the `m` flag anchors at position 0 and after every line
  terminator; `scanMultiline` tries those positions in order.
* `matchAll` with the `g` flag yields all non-overlapping matches in order;
  `toolsScan` consumes each match and continues after it.

JavaScript runtime faults (`comment.author.login` / `comment.body.match` on a
null field throw a `TypeError`) are modelled in a second, untrusted layer
(`BaseCommentU`, `parseCommentU`, ...) where the nullable fields are `Option`
and fallible access returns `Except JsFault`.
-/

/-- JS line terminators: `\n`, `\r`, U+2028, U+2029.  These are the characters
the un-flagged `.` does not match and the positions `^`/`$` (with `m`) anchor
around. -/
def isLineTerm (c : Char) : Bool :=
  c = '\n' || c = '\r' || c.val = 0x2028 || c.val = 0x2029

/-- JS whitespace (`\s` and the set removed by `String.prototype.trim`):
WhiteSpace ∪ LineTerminator. -/
def isJsSpace (c : Char) : Bool :=
  c = ' ' || c = '\t' || c = '\n' || c = '\r' ||
  c.val = 0x0B || c.val = 0x0C || c.val = 0xA0 || c.val = 0x1680 ||
  (0x2000 ≤ c.val && c.val ≤ 0x200A) ||
  c.val = 0x2028 || c.val = 0x2029 || c.val = 0x202F || c.val = 0x205F ||
  c.val = 0x3000 || c.val = 0xFEFF

/-- `String.prototype.trim`: strip `isJsSpace` characters from both ends. -/
def jsTrimL (s : List Char) : List Char :=
  ((s.dropWhile isJsSpace).reverse.dropWhile isJsSpace).reverse

/-- `[a-z:]`, the character class of the fingerprinting-id capture. -/
def isIdChar (c : Char) : Bool :=
  ('a' ≤ c && c ≤ 'z') || c = ':'

/- Marker strings of the source regexes.  Emoji are written with explicit
code points so that multi-scalar glyphs (U+FE0F variation selectors) are
exactly the ones of the source. -/

/-- `⚠️` (U+26A0 U+FE0F), first alternative of the issue-type glyph class. -/
def warnGlyph : List Char := [Char.ofNat 0x26A0, Char.ofNat 0xFE0F]

/-- `💡` (U+1F4A1). -/
def bulbGlyph : List Char := [Char.ofNat 0x1F4A1]

/-- `❗` (U+2757). -/
def exclGlyph : List Char := [Char.ofNat 0x2757]

/-- `💬` (U+1F4AC). -/
def speechGlyph : List Char := [Char.ofNat 0x1F4AC]

/-- `🛠️` (U+1F6E0 U+FE0F). -/
def toolsGlyph : List Char := [Char.ofNat 0x1F6E0, Char.ofNat 0xFE0F]

/-- `` ``` ``, the fence delimiter. -/
def ticks : List Char := "```".toList

/-- ```` ```\n ````, the untagged opening fence of the AI-prompt regex. -/
def fenceNL : List Char := ticks ++ ['\n']

/-- ```` ```diff\n ````. -/
def diffOpen : List Char := ticks ++ "diff\n".toList

/-- ```` ```suggestion\n ````. -/
def suggOpen : List Char := ticks ++ "suggestion\n".toList

/-- `**`. -/
def boldMarker : List Char := "**".toList

/-- `<summary>🤖 Prompt for AI Agents</summary>` (🤖 is U+1F916). -/
def aiMarker : List Char :=
  "<summary>".toList ++ [Char.ofNat 0x1F916] ++ " Prompt for AI Agents</summary>".toList

/-- `<summary>🪛 ` (🪛 is U+1FA9B), opening of one tools match. -/
def toolMarker : List Char :=
  "<summary>".toList ++ [Char.ofNat 0x1FA9B, ' ']

/-- `</summary>`. -/
def summaryClose : List Char := "</summary>".toList

/-- `📝 Committable suggestion` (📝 is U+1F4DD). -/
def commitMarker : List Char :=
  [Char.ofNat 0x1F4DD, ' '] ++ "Committable suggestion".toList

/-- `<!-- fingerprinting:`. -/
def fpOpen : List Char := "<!-- fingerprinting:".toList

/-- ` -->`, the closing of the fingerprinting marker. -/
def fpClose : List Char := " -->".toList

/-- `###`. -/
def hashMarker : List Char := "###".toList

/-- `([\s\S]+?)` followed by the literal `close`: consume at least one
arbitrary character, lazily, until `close` follows; the capture is returned,
`none` when no closing occurrence exists. -/
def takeUntilClose (close : List Char) : List Char → Option (List Char)
  | [] => none
  | c :: rest =>
    if close.isPrefixOf rest then some [c]
    else (takeUntilClose close rest).map (fun t => c :: t)

/-- `(.+?)` followed by the literal `close`: as `takeUntilClose` but `.` does
not cross a line terminator. -/
def takeUntilCloseNoNL (close : List Char) : List Char → Option (List Char)
  | [] => none
  | c :: rest =>
    if isLineTerm c then none
    else if close.isPrefixOf rest then some [c]
    else (takeUntilCloseNoNL close rest).map (fun t => c :: t)

/-- Unanchored search: try the matcher `f` at every position from the left and
keep the first success — the leftmost-match rule of `String.prototype.match`. -/
def scanSuffixes (f : List Char → Option (List Char)) : List Char → Option (List Char)
  | [] => f []
  | c :: rest =>
    match f (c :: rest) with
    | some v => some v
    | none => scanSuffixes f rest

/-- Positions after a line terminator, in order — the anchors of `^` under the
`m` flag other than position 0. -/
def scanAfterNewline (f : List Char → Option (List Char)) : List Char → Option (List Char)
  | [] => none
  | c :: rest =>
    if isLineTerm c then
      match f rest with
      | some v => some v
      | none => scanAfterNewline f rest
    else scanAfterNewline f rest

/-- Multiline-anchored search: position 0 first, then after each line
terminator, leftmost success wins. -/
def scanMultiline (f : List Char → Option (List Char)) (s : List Char) : Option (List Char) :=
  match f s with
  | some v => some v
  | none => scanAfterNewline f s

/-- One alternative of `(?:⚠️|💡|❗|💬|🛠️)`: the glyph matched and the rest. -/
def glyphSplit (s : List Char) : Option (List Char × List Char) :=
  if warnGlyph.isPrefixOf s then some (warnGlyph, s.drop warnGlyph.length)
  else if bulbGlyph.isPrefixOf s then some (bulbGlyph, s.drop bulbGlyph.length)
  else if exclGlyph.isPrefixOf s then some (exclGlyph, s.drop exclGlyph.length)
  else if speechGlyph.isPrefixOf s then some (speechGlyph, s.drop speechGlyph.length)
  else if toolsGlyph.isPrefixOf s then some (toolsGlyph, s.drop toolsGlyph.length)
  else none

/-- Anchored body of `/^_((?:⚠️|💡|❗|💬|🛠️).+?)_/m`: a literal `_`, a glyph,
lazily extended non-line-terminator characters, a closing `_`; the capture is
glyph plus middle. -/
def typeAt (s : List Char) : Option (List Char) :=
  match s with
  | '_' :: rest =>
    match glyphSplit rest with
    | some gr => (takeUntilCloseNoNL ['_'] gr.2).map (fun mid => gr.1 ++ mid)
    | none => none
  | _ => none

/-- `comment.body.match(/^_((?:⚠️|💡|❗|💬|🛠️).+?)_/m)`, group 1. -/
def extractTypeL (s : List Char) : Option (List Char) :=
  scanMultiline typeAt s

/-- `\s+(.+)$` after the `###` of the heading regex, split point `j` characters
of whitespace consumed, tried greedily from the largest `j` down (backtracking
order of the greedy `\s+`).  `(.+)$` succeeds exactly when the first remaining
character is not a line terminator, capturing the maximal non-line-terminator
run (after which `$` holds under `m`). -/
def tryHeading (u : List Char) : Nat → Option (List Char)
  | 0 => none
  | j + 1 =>
    match u.drop (j + 1) with
    | [] => tryHeading u j
    | c :: rest =>
      if isLineTerm c then tryHeading u j
      else some ((c :: rest).takeWhile (fun ch => !isLineTerm ch))

/-- Anchored body of `/^###\s+(.+)$/m`. -/
def headingAt (s : List Char) : Option (List Char) :=
  if hashMarker.isPrefixOf s then
    let u := s.drop hashMarker.length
    tryHeading u (u.takeWhile isJsSpace).length
  else none

/-- `comment.body.match(/^###\s+(.+)$/m)`, group 1. -/
def extractHeadingL (s : List Char) : Option (List Char) :=
  scanMultiline headingAt s

/-- Anchored body of `/\*\*(.+?)\*\*/`. -/
def summaryAt (s : List Char) : Option (List Char) :=
  if boldMarker.isPrefixOf s then takeUntilCloseNoNL boldMarker (s.drop boldMarker.length)
  else none

/-- `comment.body.match(/\*\*(.+?)\*\*/)`, group 1. -/
def extractSummaryL (s : List Char) : Option (List Char) :=
  scanSuffixes summaryAt s

/-- Anchored body of a tagged-fence regex `` /```tag\n([\s\S]+?)```/ ``:
the opening literal `opener`, then the lazy capture up to `` ``` ``. -/
def fencedAt (opener : List Char) (s : List Char) : Option (List Char) :=
  if opener.isPrefixOf s then takeUntilClose ticks (s.drop opener.length)
  else none

/-- `` comment.body.match(/```diff\n([\s\S]+?)```/) ``, group 1. -/
def extractDiffL (s : List Char) : Option (List Char) :=
  scanSuffixes (fencedAt diffOpen) s

/-- `` comment.body.match(/```suggestion\n([\s\S]+?)```/) ``, group 1. -/
def extractSuggestionL (s : List Char) : Option (List Char) :=
  scanSuffixes (fencedAt suggOpen) s

/-- ``[\s\S]*?```\n([\s\S]+?)``` `` after the AI-prompt marker: the lazy gap
grows one character at a time; at each gap the opening ```` ```\n ```` is
tried and, behind it, the lazy capture up to `` ``` ``; exhausting the inner
possibilities backtracks into a longer gap. -/
def scanGap (s : List Char) : Option (List Char) :=
  match s with
  | [] => none
  | c :: rest =>
    match (if fenceNL.isPrefixOf (c :: rest) then
             takeUntilClose ticks ((c :: rest).drop fenceNL.length)
           else none) with
    | some v => some v
    | none => scanGap rest

/-- Anchored body of the AI-prompt regex: the collapsible-section marker, then
`scanGap`. -/
def aiPromptAt (s : List Char) : Option (List Char) :=
  if aiMarker.isPrefixOf s then scanGap (s.drop aiMarker.length) else none

/-- ``comment.body.match(/<summary>🤖 Prompt for AI Agents<\/summary>[\s\S]*?```\n([\s\S]+?)```/)``,
group 1. -/
def extractAiPromptL (s : List Char) : Option (List Char) :=
  scanSuffixes aiPromptAt s

/-- ``[\s\S]*?\n([\s\S]+?)``` `` after the first `` ``` `` of the committable
regex: lazy gap to a `\n`, then the lazy capture up to `` ``` ``. -/
def commitTailScan (s : List Char) : Option (List Char) :=
  match s with
  | [] => none
  | c :: rest =>
    match (if c = '\n' then takeUntilClose ticks rest else none) with
    | some v => some v
    | none => commitTailScan rest

/-- ``[\s\S]*?```[\s\S]*?\n([\s\S]+?)``` `` after the committable marker:
outer lazy gap to a `` ``` ``, then `commitTailScan`; inner exhaustion
backtracks into a longer outer gap. -/
def commitGapScan (s : List Char) : Option (List Char) :=
  match s with
  | [] => none
  | c :: rest =>
    match (if ticks.isPrefixOf (c :: rest) then
             commitTailScan ((c :: rest).drop ticks.length)
           else none) with
    | some v => some v
    | none => commitGapScan rest

/-- Anchored body of `` /📝 Committable suggestion[\s\S]*?```[\s\S]*?\n([\s\S]+?)```/ ``. -/
def committableAt (s : List Char) : Option (List Char) :=
  if commitMarker.isPrefixOf s then commitGapScan (s.drop commitMarker.length)
  else none

/-- The committable-suggestion capture, group 1. -/
def extractCommittableL (s : List Char) : Option (List Char) :=
  scanSuffixes committableAt s

/-- Anchored body of `/<!-- fingerprinting:([a-z:]+) -->/`.  The greedy
`[a-z:]+` takes the maximal run; backtracking to a shorter run cannot help
because the closer starts with a space, which is not in the class — so the
match is the maximal run iff ` -->` follows it. -/
def internalIdAt (s : List Char) : Option (List Char) :=
  if fpOpen.isPrefixOf s then
    let after := s.drop fpOpen.length
    let cap := after.takeWhile isIdChar
    if cap.length ≠ 0 && fpClose.isPrefixOf (after.drop cap.length) then some cap
    else none
  else none

/-- `comment.body.match(/<!-- fingerprinting:([a-z:]+) -->/)`, group 1. -/
def extractInternalIdL (s : List Char) : Option (List Char) :=
  scanSuffixes internalIdAt s

/-- One match of `/<summary>🪛 ([^<]+)<\/summary>/g`: the capture and the
total length of the match (marker, capture, closer).  The greedy `[^<]+`
collapses to the maximal `<`-free run for the same reason as `internalIdAt`
(the closer starts with `<`, excluded from the class). -/
def toolAt (s : List Char) : Option (List Char × Nat) :=
  if toolMarker.isPrefixOf s then
    let after := s.drop toolMarker.length
    let cap := after.takeWhile (fun c => c ≠ '<')
    if cap.length ≠ 0 && summaryClose.isPrefixOf (after.drop cap.length) then
      some (cap, toolMarker.length + cap.length + summaryClose.length)
    else none
  else none

theorem toolAt_some_pos {s : List Char} {p : List Char × Nat}
    (h : toolAt s = some p) : 0 < p.2 ∧ 0 < s.length := by
  simp only [toolAt] at h
  split at h
  case isFalse => exact absurd h (by simp)
  case isTrue hpre =>
    split at h
    case isFalse => exact absurd h (by simp)
    case isTrue hcap =>
      have hlen : toolMarker.length ≤ s.length :=
        ((List.isPrefixOf_iff_prefix).mp hpre).length_le
      have hm11 : toolMarker.length = 11 := by decide
      injection h with h'
      subst h'
      constructor
      · simp only []
        omega
      · omega

set_option linter.unusedVariables false

/-- `Array.from(comment.body.matchAll(/<summary>🪛 ([^<]+)<\/summary>/g))`,
mapped to group 1: every non-overlapping match in document order; scanning
resumes after each complete match. -/
def toolsScan (s : List Char) : List (List Char) :=
  match hm : toolAt s with
  | some p => p.1 :: toolsScan (s.drop p.2)
  | none =>
    match s with
    | [] => []
    | _ :: t => toolsScan t
termination_by s.length
decreasing_by
  · have h2 := toolAt_some_pos hm
    simp only [List.length_drop]
    omega
  · simp only [List.length_cons]
    omega

/-! ## Data model (`src/types/bots.ts`) -/

/-- `author: { login: string }` of `BaseComment`. -/
structure Author where
  login : String
deriving DecidableEq, Repr

/-- `BaseComment` of `src/types/bots.ts`: the unparsed unit of input. -/
structure BaseComment where
  commentId : Nat
  body : String
  author : Author
  createdAt : String
  url : String
  path : Option String
  position : Option Nat
  isResolved : Option Bool
  isOutdated : Option Bool
  isMinimized : Option Bool
deriving DecidableEq, Repr

/-- The fields `parseCodeRabbitComment` derives from the body, grouped so that
the trusted and the untrusted layer share one extraction core. -/
structure Derived where
  type : Option String
  heading : Option String
  summary : Option String
  diff : Option String
  suggestedCode : Option String
  committableSuggestion : Option String
  aiPrompt : Option String
  tools : List String
  internalId : Option String
deriving DecidableEq, Repr

/-- `CodeRabbitComment` of `src/types/bots.ts`: a `BaseComment` plus the
derived fields, the `bot` tag and the (never parser-written) `explanation`. -/
structure CodeRabbitComment extends BaseComment, Derived where
  bot : String
  explanation : Option String
deriving DecidableEq, Repr

/-- `Comment = BaseComment | CodeRabbitComment`, the tagged union flowing
through `parseComments` and `filterActionableComments`; the discriminant of
the source (`'bot' in comment`) is the constructor here. -/
inductive Comment where
  | base (c : BaseComment)
  | codeRabbit (c : CodeRabbitComment)
deriving DecidableEq, Repr

/-- The `BaseComment` part of a union member (structural upcast of TS). -/
def Comment.toBase : Comment → BaseComment
  | .base c => c
  | .codeRabbit c => c.toBaseComment

/-- The `explanation` property a spread `{...comment}` carries over: absent on
a `BaseComment`, the stored value on a `CodeRabbitComment`. -/
def Comment.explanationOf : Comment → Option String
  | .base _ => none
  | .codeRabbit c => c.explanation

/-- `.trim().replace(/^(?:⚠️|💡|❗|💬|🛠️)\s*/, '')` applied to the issue-type
capture: drop a leading glyph and the whitespace after it. -/
def stripTypeGlyph (s : List Char) : List Char :=
  match glyphSplit s with
  | some gr => gr.2.dropWhile isJsSpace
  | none => s

/-- All field extractions of `parseCodeRabbitComment` on one body, with the
source's `?.trim()` post-processing (`internalId` is the one untrimmed
capture, and `tools` keeps every capture — the `typeof t === 'string'` filter
of the source never drops a group-1 capture). -/
def deriveFields (body : String) : Derived :=
  { type := (extractTypeL body.toList).map fun t => String.mk (stripTypeGlyph (jsTrimL t))
    heading := (extractHeadingL body.toList).map fun t => String.mk (jsTrimL t)
    summary := (extractSummaryL body.toList).map fun t => String.mk (jsTrimL t)
    diff := (extractDiffL body.toList).map fun t => String.mk (jsTrimL t)
    suggestedCode := (extractSuggestionL body.toList).map fun t => String.mk (jsTrimL t)
    committableSuggestion := (extractCommittableL body.toList).map fun t => String.mk (jsTrimL t)
    aiPrompt := (extractAiPromptL body.toList).map fun t => String.mk (jsTrimL t)
    tools := (toolsScan body.toList).map fun t => String.mk (jsTrimL t)
    internalId := (extractInternalIdL body.toList).map fun t => String.mk t }

/-! ## Orchestrator (`src/utils/bot-parser.ts`) -/

/-- `parseCodeRabbitComment`: spread the input (`{...comment}` keeps every
base field and a pre-existing `explanation` verbatim), tag
`bot: 'coderabbitai[bot]'`, and assign every derived field from the body. -/
def parseCodeRabbitComment (c : Comment) : CodeRabbitComment :=
  { toBaseComment := c.toBase
    toDerived := deriveFields c.toBase.body
    bot := "coderabbitai[bot]"
    explanation := c.explanationOf }

/-- `parseComment`: classify by exact author login against the two accepted
spellings, parse on a hit, pass the input through unchanged otherwise. -/
def parseComment (c : Comment) : Comment :=
  if c.toBase.author.login = "coderabbitai" ∨ c.toBase.author.login = "coderabbitai[bot]" then
    .codeRabbit (parseCodeRabbitComment c)
  else c

/-- `parseComments`: `comments.map((comment) => parseComment(comment))`. -/
def parseComments (comments : List Comment) : List Comment :=
  comments.map (fun comment => parseComment comment)

/-- JS truthiness of an optional string field: present and non-empty. -/
def truthy : Option String → Bool
  | none => false
  | some s => s ≠ ""

/-- The predicate of the source's `filter` callback: a union member with the
`bot` discriminant equal to `'coderabbitai[bot]'` and
`!!(comment.aiPrompt || comment.suggestedCode || comment.committableSuggestion)`. -/
def isActionableComment : Comment → Bool
  | .base _ => false
  | .codeRabbit cc =>
    cc.bot = "coderabbitai[bot]" &&
      (truthy cc.aiPrompt || truthy cc.suggestedCode || truthy cc.committableSuggestion)

/-- `filterActionableComments`: keep exactly the actionable CodeRabbit
comments, in order. -/
def filterActionableComments (comments : List Comment) : List CodeRabbitComment :=
  comments.filterMap fun comment =>
    match comment with
    | .codeRabbit cc => if isActionableComment (.codeRabbit cc) then some cc else none
    | .base _ => none

/-! ## Untrusted layer: JS runtime faults on nullable fields

`isCodeRabbitComment` (`src/types/bots.ts`) and `parseComment` read
`comment.author.login`, and `parseCodeRabbitComment` reads
`comment.body.match(...)`; when the accessed field is `null`/`undefined` the
JS runtime throws a `TypeError`.  Nullable fields become `Option`, and the
fallible operations return `Except JsFault`. -/

/-- The one runtime fault class these accesses can raise. -/
inductive JsFault where
  | typeError
deriving DecidableEq, Repr

/-- An author object whose `login` property may be missing. -/
structure AuthorU where
  login : Option String
deriving DecidableEq, Repr

/-- A `BaseComment` as delivered by an untrusted upstream: `author` and `body`
may be null despite the declared type. -/
structure BaseCommentU where
  commentId : Nat
  body : Option String
  author : Option AuthorU
  createdAt : String
  url : String
  path : Option String
  position : Option Nat
  isResolved : Option Bool
  isOutdated : Option Bool
  isMinimized : Option Bool
deriving DecidableEq, Repr

/-- The parsed shape over an untrusted base (spread keeps the base fields). -/
structure CodeRabbitCommentU extends BaseCommentU, Derived where
  bot : String
deriving DecidableEq, Repr

/-- The union over untrusted comments. -/
inductive CommentU where
  | base (c : BaseCommentU)
  | codeRabbit (c : CodeRabbitCommentU)
deriving DecidableEq, Repr

/-- `comment.author.login`: throws `TypeError` when `author` is null;
a present author with a missing `login` just yields `undefined` (`none`). -/
def jsLoginOf (c : BaseCommentU) : Except JsFault (Option String) :=
  match c.author with
  | none => .error .typeError
  | some a => .ok a.login

/-- `isCodeRabbitComment` of `src/types/bots.ts` on an untrusted comment:
`comment.author.login === 'coderabbitai' || comment.author.login === 'coderabbitai[bot]'`. -/
def isCodeRabbitCommentU (c : BaseCommentU) : Except JsFault Bool :=
  (jsLoginOf c).map fun l => l = some "coderabbitai" || l = some "coderabbitai[bot]"

/-- `parseCodeRabbitComment` on an untrusted comment: every extractor runs
`comment.body.match`, which throws `TypeError` on a null body and succeeds on
every string body. -/
def parseCodeRabbitCommentU (c : BaseCommentU) : Except JsFault CodeRabbitCommentU :=
  match c.body with
  | none => .error .typeError
  | some body =>
    .ok { toBaseCommentU := c
          toDerived := deriveFields body
          bot := "coderabbitai[bot]" }

/-- `parseComment` on an untrusted comment: the classification reads
`comment.author.login` (fault on null author), then either parses (fault on
null body) or passes the input through. -/
def parseCommentU (c : BaseCommentU) : Except JsFault CommentU :=
  match jsLoginOf c with
  | .error e => .error e
  | .ok l =>
    if l = some "coderabbitai" ∨ l = some "coderabbitai[bot]" then
      (parseCodeRabbitCommentU c).map .codeRabbit
    else .ok (.base c)

/-- `parseComments` on untrusted comments: `comments.map(...)` propagates the
first thrown fault, aborting the batch. -/
def parseCommentsU (comments : List BaseCommentU) : Except JsFault (List CommentU) :=
  comments.mapM parseCommentU

/-! ## Scanner soundness lemmas -/

/-- A successful unanchored search decomposes the input: some split point at
which the anchored matcher succeeds. -/
theorem scanSuffixes_sound {f : List Char → Option (List Char)} {s v : List Char}
    (h : scanSuffixes f s = some v) : ∃ p r, s = p ++ r ∧ f r = some v := by
  induction s with
  | nil => exact ⟨[], [], rfl, h⟩
  | cons c rest ih =>
    rw [scanSuffixes] at h
    cases hf : f (c :: rest) with
    | some w =>
      rw [hf] at h
      injection h with h
      subst h
      exact ⟨[], c :: rest, rfl, hf⟩
    | none =>
      rw [hf] at h
      obtain ⟨p, r, hpr, hr⟩ := ih h
      exact ⟨c :: p, r, by rw [hpr]; rfl, hr⟩

/-- A successful lazy capture decomposes the input as capture, closer, rest,
with a non-empty capture. -/
theorem takeUntilClose_sound {close s cap : List Char}
    (h : takeUntilClose close s = some cap) :
    cap ≠ [] ∧ ∃ t, s = cap ++ close ++ t := by
  induction s generalizing cap with
  | nil => simp [takeUntilClose] at h
  | cons c rest ih =>
    rw [takeUntilClose] at h
    split at h
    case isTrue hpre =>
      injection h with h
      subst h
      obtain ⟨t, ht⟩ := List.isPrefixOf_iff_prefix.mp hpre
      exact ⟨by simp, t, by rw [← ht]; rfl⟩
    case isFalse hpre =>
      cases htuc : takeUntilClose close rest with
      | none => rw [htuc] at h; simp at h
      | some cap' =>
        rw [htuc] at h
        simp only [Option.map_some'] at h
        obtain ⟨_, t, ht⟩ := ih htuc
        injection h with h
        subst h
        exact ⟨by simp, t, by rw [ht]; rfl⟩

/-- A successful AI-prompt tail scan decomposes its input as gap, opening
fence, capture, closing fence, rest. -/
theorem scanGap_sound {s v : List Char} (h : scanGap s = some v) :
    v ≠ [] ∧ ∃ g t, s = g ++ fenceNL ++ v ++ ticks ++ t := by
  induction s with
  | nil => exact Option.noConfusion h
  | cons c rest ih =>
    rw [scanGap] at h
    split at h
    case h_1 w heq =>
      split at heq
      case isTrue hpre =>
        injection h with h
        subst h
        obtain ⟨hne, t, ht⟩ := takeUntilClose_sound heq
        obtain ⟨u, hu⟩ := List.isPrefixOf_iff_prefix.mp hpre
        refine ⟨hne, [], t, ?_⟩
        have hdrop : (c :: rest).drop fenceNL.length = u := by
          rw [← hu]
          simp
        rw [hdrop] at ht
        rw [← hu, ht]
        simp
      case isFalse => exact absurd heq (by simp)
    case h_2 heq =>
      obtain ⟨hne, g, t, hgt⟩ := ih h
      exact ⟨hne, c :: g, t, by rw [hgt]; rfl⟩

/-! ## Concrete comments used as witnesses and counterexamples -/

/-- A human comment (the shape of the test fixture `mockBaseComment`). -/
def regularComment : BaseComment :=
  { commentId := 123
    body := "This is a regular comment"
    author := { login := "user123" }
    createdAt := "2025-08-27T12:00:00Z"
    url := "https://github.com/owner/repo/pull/1"
    path := some "src/test.ts"
    position := some 10
    isResolved := some false
    isOutdated := some false
    isMinimized := some false }

/-- A recognized-bot comment with no extractable markers. -/
def botComment : BaseComment :=
  { commentId := 456
    body := "Simple CodeRabbit comment without extras"
    author := { login := "coderabbitai[bot]" }
    createdAt := "2025-08-27T12:00:00Z"
    url := "https://github.com/owner/repo/pull/1"
    path := some "src/test.ts"
    position := some 15
    isResolved := some false
    isOutdated := some false
    isMinimized := some false }

/-- A recognized-bot comment whose AI-prompt marker is followed by an
opened-but-never-closed fence (the malformed-comment scenario of the
integration test). -/
def unterminatedComment : BaseComment :=
  { commentId := 999
    body := String.mk ("Incomplete CodeRabbit comment with missing closing tags ".toList
      ++ aiMarker ++ [' '] ++ ticks ++ "\nIncomplete prompt".toList)
    author := { login := "coderabbitai[bot]" }
    createdAt := "2025-08-27T10:00:00Z"
    url := "https://github.com/owner/repo/pull/1"
    path := none
    position := none
    isResolved := none
    isOutdated := none
    isMinimized := none }

/-- A recognized-bot comment whose suggestion fence holds only whitespace. -/
def wsSuggestionComment : BaseComment :=
  { commentId := 321
    body := String.mk (suggOpen ++ [' ', '\n'] ++ ticks)
    author := { login := "coderabbitai" }
    createdAt := "2025-08-27T12:00:00Z"
    url := "https://github.com/owner/repo/pull/1"
    path := none
    position := none
    isResolved := none
    isOutdated := none
    isMinimized := none }

/-- A body with a well-formed AI-prompt section. -/
def aiPromptBody : String :=
  String.mk ("Intro\n".toList ++ aiMarker ++ "\nsome text\n".toList
    ++ fenceNL ++ "Review this component\n".toList ++ ticks ++ "\ntail".toList)

/-- An untrusted human comment (fine author, fine body). -/
def humanCommentU : BaseCommentU :=
  { commentId := 1
    body := some "This looks good to me!"
    author := some { login := some "reviewer42" }
    createdAt := "2025-08-27T12:00:00Z"
    url := "https://example.test/c/1"
    path := none
    position := none
    isResolved := none
    isOutdated := none
    isMinimized := none }

/-- An untrusted comment with a recognized author and a null body. -/
def nullBodyCommentU : BaseCommentU :=
  { commentId := 999
    body := none
    author := some { login := some "coderabbitai" }
    createdAt := "2025-08-27T10:00:00Z"
    url := "https://example.test/c/999"
    path := none
    position := none
    isResolved := none
    isOutdated := none
    isMinimized := none }

/-- An untrusted comment with a recognized author and a string body. -/
def stringBodyCommentU : BaseCommentU :=
  { commentId := 3
    body := some "hi"
    author := some { login := some "coderabbitai" }
    createdAt := "2025-08-27T10:00:00Z"
    url := "https://example.test/c/3"
    path := none
    position := none
    isResolved := none
    isOutdated := none
    isMinimized := none }

/-- An untrusted comment whose author field is absent. -/
def noAuthorCommentU : BaseCommentU :=
  { commentId := 7
    body := some "hello"
    author := none
    createdAt := "2025-08-27T10:00:00Z"
    url := "https://example.test/c/7"
    path := none
    position := none
    isResolved := none
    isOutdated := none
    isMinimized := none }

/-- An untrusted comment whose author object lacks the `login` property. -/
def noLoginCommentU : BaseCommentU :=
  { commentId := 8
    body := some "x"
    author := some { login := none }
    createdAt := "2025-08-27T10:00:00Z"
    url := "https://example.test/c/8"
    path := none
    position := none
    isResolved := none
    isOutdated := none
    isMinimized := none }

/-! ## Claims -/

/-- C1, counterexample: a recognized-author comment with a null body makes
`parseComment` throw (`comment.body.match` raises `TypeError`), and a batch
holding such an item aborts: `parseComments` yields no result for the healthy
item that precedes it. -/
theorem c1_counterexample :
    parseCommentU nullBodyCommentU = .error .typeError ∧
    parseCommentsU [humanCommentU, nullBodyCommentU] = .error .typeError := by
  exact ⟨rfl, rfl⟩

/-- C1, amended: for a recognized-author comment the orchestrator returns
without a fault exactly when the body is a string; a null body faults with
`TypeError` (and, per the counterexample, aborts a batch). -/
theorem c1_amended (c : BaseCommentU) (a : AuthorU) (h1 : c.author = some a)
    (h2 : a.login = some "coderabbitai" ∨ a.login = some "coderabbitai[bot]") :
    (∀ s : String, c.body = some s → (parseCommentU c).isOk = true) ∧
    (c.body = none → parseCommentU c = .error .typeError) := by
  constructor
  · intro s hs
    simp [parseCommentU, jsLoginOf, h1, h2, parseCodeRabbitCommentU, hs, Except.map,
      Except.isOk, Except.toBool]
  · intro hs
    simp [parseCommentU, jsLoginOf, h1, h2, parseCodeRabbitCommentU, hs, Except.map]

/-- C1, witness for the amended theorem at a concrete string-body comment. -/
theorem c1_amended_witness : (parseCommentU stringBodyCommentU).isOk = true :=
  (c1_amended stringBodyCommentU { login := some "coderabbitai" } rfl (Or.inl rfl)).1 "hi" rfl

/-- C2, counterexample: a comment whose author field is absent does not
classify as false — both the classifier of `src/types/bots.ts` and
`parseComment` throw a `TypeError` reading `comment.author.login`. -/
theorem c2_counterexample :
    isCodeRabbitCommentU noAuthorCommentU = .error .typeError ∧
    parseCommentU noAuthorCommentU = .error .typeError := by
  exact ⟨rfl, rfl⟩

/-- C2, amended: when the author object is present, any missing or
unrecognized `login` (reading `undefined` included) classifies as false and
the comment passes through unchanged without a fault; only an absent author
object itself faults (per the counterexample). -/
theorem c2_amended (c : BaseCommentU) (a : AuthorU) (h1 : c.author = some a)
    (h2 : a.login ≠ some "coderabbitai") (h3 : a.login ≠ some "coderabbitai[bot]") :
    isCodeRabbitCommentU c = .ok false ∧ parseCommentU c = .ok (.base c) := by
  constructor
  · simp [isCodeRabbitCommentU, jsLoginOf, h1, h2, h3, Except.map]
  · simp [parseCommentU, jsLoginOf, h1, h2, h3]

/-- C2, witness for the amended theorem at a concrete comment whose author
object has no `login` property. -/
theorem c2_amended_witness :
    isCodeRabbitCommentU noLoginCommentU = .ok false ∧
    parseCommentU noLoginCommentU = .ok (.base noLoginCommentU) :=
  c2_amended noLoginCommentU { login := none } rfl (by decide) (by decide)

/-- C3: a comment whose author login is neither recognized spelling is
returned by `parseComment` unchanged — the very input value, no field added
or modified. -/
theorem c3_passthrough (c : Comment)
    (h1 : c.toBase.author.login ≠ "coderabbitai")
    (h2 : c.toBase.author.login ≠ "coderabbitai[bot]") :
    parseComment c = c := by
  rw [parseComment, if_neg]
  rintro (h | h) <;> [exact h1 h; exact h2 h]

/-- C3, witness at a concrete human comment. -/
theorem c3_passthrough_witness : parseComment (.base regularComment) = .base regularComment :=
  c3_passthrough (.base regularComment) (by decide) (by decide)

/-- C4: a comment with a recognized author login parses to a CodeRabbit
comment whose base part equals the input exactly (every base field verbatim)
and which carries the canonical bot tag; its `tools` field is a `List String`
by construction — total, possibly empty, never absent. -/
theorem c4_base_preserved (b : BaseComment)
    (h : b.author.login = "coderabbitai" ∨ b.author.login = "coderabbitai[bot]") :
    parseComment (.base b) = .codeRabbit (parseCodeRabbitComment (.base b)) ∧
    (parseCodeRabbitComment (.base b)).toBaseComment = b ∧
    (parseCodeRabbitComment (.base b)).bot = "coderabbitai[bot]" ∧
    (parseCodeRabbitComment (.base b)).tools = (deriveFields b.body).tools := by
  refine ⟨?_, rfl, rfl, rfl⟩
  rw [parseComment]
  simp only [Comment.toBase]
  rw [if_pos h]

/-- C4, witness at a concrete recognized-bot comment. -/
theorem c4_base_preserved_witness :
    parseComment (.base botComment) = .codeRabbit (parseCodeRabbitComment (.base botComment)) ∧
    (parseCodeRabbitComment (.base botComment)).toBaseComment = botComment ∧
    (parseCodeRabbitComment (.base botComment)).bot = "coderabbitai[bot]" ∧
    (parseCodeRabbitComment (.base botComment)).tools = (deriveFields botComment.body).tools :=
  c4_base_preserved botComment (Or.inr rfl)

/-- C5: batch parsing preserves length and order — the i-th output is
`parseComment` of the i-th input — and the empty batch yields the empty
list. -/
theorem c5_batch_elementwise (l : List Comment) :
    (parseComments l).length = l.length ∧
    (∀ i : Fin l.length,
      (parseComments l).get (Fin.cast (by simp [parseComments]) i) = parseComment (l.get i)) ∧
    parseComments ([] : List Comment) = [] := by
  refine ⟨by simp [parseComments], fun i => ?_, rfl⟩
  simp [parseComments]

/-- C6: `filterActionableComments` keeps exactly the CodeRabbit-tagged
comments with a truthy `aiPrompt`, `suggestedCode` or `committableSuggestion`
(raw comments never pass), and its output, seen back in the union, is the
order-preserving sublist of the input selected by that predicate — no
reordering, no deduplication. -/
theorem c6_filter_actionable (l : List Comment) :
    (filterActionableComments l).map Comment.codeRabbit = l.filter isActionableComment ∧
    List.Sublist ((filterActionableComments l).map Comment.codeRabbit) l := by
  have key : ∀ m : List Comment,
      (filterActionableComments m).map Comment.codeRabbit = m.filter isActionableComment := by
    intro m
    induction m with
    | nil => rfl
    | cons c rest ih =>
      cases c with
      | base b =>
        simpa [filterActionableComments, List.filterMap_cons, List.filter_cons,
          isActionableComment] using ih
      | codeRabbit cc =>
        by_cases hact : isActionableComment (.codeRabbit cc) = true
        · simpa [filterActionableComments, List.filterMap_cons, List.filter_cons, hact] using ih
        · simpa [filterActionableComments, List.filterMap_cons, List.filter_cons,
            Bool.of_not_eq_true hact] using ih
  refine ⟨key l, ?_⟩
  rw [key l]
  exact List.filter_sublist l

/-- C7: a produced AI prompt is always anchored — the body decomposes as some
prefix, then the robot-glyph collapsible marker, then a gap, then an opening
fence with the (non-empty) captured text and its closing fence; in
particular, a fence not preceded by the marker can never produce a value,
since any successful extraction exhibits its marker to the left of the
capture. -/
theorem c7_aiprompt_anchored (s v : List Char)
    (h : extractAiPromptL s = some v) :
    v ≠ [] ∧ ∃ p g t, s = p ++ aiMarker ++ g ++ fenceNL ++ v ++ ticks ++ t := by
  obtain ⟨p, r, hs, hr⟩ := scanSuffixes_sound h
  simp only [aiPromptAt] at hr
  split at hr
  case isTrue hpre =>
    obtain ⟨u, hu⟩ := List.isPrefixOf_iff_prefix.mp hpre
    have hdrop : r.drop aiMarker.length = u := by rw [← hu]; simp
    rw [hdrop] at hr
    obtain ⟨hne, g, t, hgt⟩ := scanGap_sound hr
    refine ⟨hne, p, g, t, ?_⟩
    rw [hs, ← hu, hgt]
    simp
  case isFalse => exact absurd hr (by simp)

/-- C7, witness at a concrete body holding the marker and a following fence. -/
theorem c7_aiprompt_anchored_witness :
    "Review this component\n".toList ≠ [] ∧
    ∃ p g t, aiPromptBody.toList =
      p ++ aiMarker ++ g ++ fenceNL ++ "Review this component\n".toList ++ ticks ++ t :=
  c7_aiprompt_anchored aiPromptBody.toList "Review this component\n".toList (by decide)

/-- C8: with any string body — empty or structurally malformed — the parse
orchestration completes without a fault (first conjunct, on the untrusted
layer where faults are visible); and on the concrete recognized-bot comment
whose AI-prompt marker is followed by an unterminated fence, `parseComment`
returns a parsed comment whose `aiPrompt` is absent. -/
theorem c8_total_on_string_bodies :
    (∀ (c : BaseCommentU) (s : String), c.body = some s →
        (parseCodeRabbitCommentU c).isOk = true) ∧
    parseComment (.base unterminatedComment) =
      .codeRabbit (parseCodeRabbitComment (.base unterminatedComment)) ∧
    (parseCodeRabbitComment (.base unterminatedComment)).aiPrompt = none := by
  refine ⟨?_, ?_, ?_⟩
  · intro c s hs
    simp [parseCodeRabbitCommentU, hs, Except.isOk, Except.toBool]
  · rw [parseComment]
    simp only [Comment.toBase]
    exact if_pos (Or.inr rfl)
  · decide

/-- C8, witness at a concrete string-body comment for the first conjunct. -/
theorem c8_total_on_string_bodies_witness :
    (parseCodeRabbitCommentU stringBodyCommentU).isOk = true :=
  c8_total_on_string_bodies.1 stringBodyCommentU "hi" rfl

/-- The base part of a freshly parsed comment is the base part of the input
(the spread keeps it verbatim). -/
theorem toBase_codeRabbit_parse (c : Comment) :
    (Comment.codeRabbit (parseCodeRabbitComment c)).toBase = c.toBase := rfl

/-- Reparsing a parse result reproduces it: the derived fields are functions
of the preserved body, and the spread-preserved `explanation` is unchanged. -/
theorem parseCodeRabbitComment_reparse (c : Comment) :
    parseCodeRabbitComment (.codeRabbit (parseCodeRabbitComment c)) = parseCodeRabbitComment c :=
  rfl

/-- C9: `parseComment` is idempotent — feeding its result (which keeps the
original body and author) back in reproduces the first parse exactly. -/
theorem c9_idempotent (c : Comment) : parseComment (parseComment c) = parseComment c := by
  by_cases h : c.toBase.author.login = "coderabbitai" ∨ c.toBase.author.login = "coderabbitai[bot]"
  · have hp : parseComment c = .codeRabbit (parseCodeRabbitComment c) := by
      rw [parseComment, if_pos h]
    rw [hp, parseComment, toBase_codeRabbit_parse, if_pos h, parseCodeRabbitComment_reparse]
  · have hp : parseComment c = c := by rw [parseComment, if_neg h]
    rw [hp, hp]

/-- Trimming a run of whitespace leaves the empty string. -/
theorem jsTrimL_all_space {w : List Char} (h : ∀ ch ∈ w, isJsSpace ch = true) :
    jsTrimL w = [] := by
  have h1 : w.dropWhile isJsSpace = [] := by
    rw [List.dropWhile_eq_nil_iff]
    exact fun x hx => h x hx
  simp [jsTrimL, h1]

/-- C10: a recognized-bot comment whose suggestion match captures only
whitespace gets `suggestedCode` present-but-empty (`some ""`, not absent);
the empty string is falsy, so the comment fails the actionability test unless
another actionable field is truthy. -/
theorem c10_ws_suggestion (b : BaseComment) (w : List Char)
    (hlogin : b.author.login = "coderabbitai" ∨ b.author.login = "coderabbitai[bot]")
    (hmatch : extractSuggestionL b.body.toList = some w)
    (hws : ∀ ch ∈ w, isJsSpace ch = true) :
    (parseCodeRabbitComment (.base b)).suggestedCode = some "" ∧
    truthy (parseCodeRabbitComment (.base b)).suggestedCode = false ∧
    (truthy (parseCodeRabbitComment (.base b)).aiPrompt = false →
     truthy (parseCodeRabbitComment (.base b)).committableSuggestion = false →
     filterActionableComments [parseComment (.base b)] = []) := by
  have hsc : (parseCodeRabbitComment (.base b)).suggestedCode = some "" := by
    show (deriveFields b.body).suggestedCode = some ""
    simp only [deriveFields]
    rw [hmatch, Option.map_some', jsTrimL_all_space hws]
  refine ⟨hsc, ?_, ?_⟩
  · rw [hsc]
    rfl
  · intro hai hcom
    have hp : parseComment (.base b) = .codeRabbit (parseCodeRabbitComment (.base b)) := by
      rw [parseComment]
      simp only [Comment.toBase]
      exact if_pos hlogin
    have hact : isActionableComment (.codeRabbit (parseCodeRabbitComment (.base b))) = false := by
      simp only [isActionableComment]
      rw [hai, hcom, hsc]
      rfl
    rw [hp]
    simp [filterActionableComments, hact]

/-- C10, witness at the concrete comment whose body is
`` ```suggestion\n \n``` ``. -/
theorem c10_ws_suggestion_witness :
    (parseCodeRabbitComment (.base wsSuggestionComment)).suggestedCode = some "" ∧
    filterActionableComments [parseComment (.base wsSuggestionComment)] = [] := by
  obtain ⟨h1, _h2, h3⟩ :=
    c10_ws_suggestion wsSuggestionComment [' ', '\n'] (Or.inl rfl) (by decide) (by decide)
  exact ⟨h1, h3 (by decide) (by decide)⟩
